import Mathlib

/-!
# Dooz PM Suite — shallow embedding of the record-keeping core

A shallow embedding of the invariant-preserving core of the `dooz-pm-suite`
repository: the Intent lifecycle state machine (`src/services/intent.service.ts`),
the append-only Decision ledger (`src/services/decision.service.ts`), the
knowledge-graph edge store (`src/services/edge.service.ts`) and the AI proposal
review workflow (`src/services/ingestion.service.ts`).

Each database table is modelled as a `List` of row structures mirroring the
Drizzle schema in `src/db/schema.ts`; a row's generated id (`nanoid()`) and the
clock (`CURRENT_TIMESTAMP` / `new Date()`) are passed explicitly.  UTC instants
are modelled as `Nat` so that SQL `ORDER BY` on timestamp text (which is
chronological for ISO-style timestamps) is ordinary `≤` on `Nat`.  A drizzle
`db.select().from(t).where(cond)` is `List.filter`; taking the first element of
the result (`const [row] = await ...`) is `List.head?`; `db.update.set.where`
maps the update over every matching row; `db.insert` appends.  SQL `NULL`
columns are `Option`; comparing a `NULL` column with `eq` is false, which the
`Option` `BEq` instance with a `some` literal reproduces.
-/

namespace PmSuite

/-- Row of the `ai_proposals` table (`src/db/schema.ts`). -/
structure AiProposal where
  id : String
  intentId : Option String
  proposalType : String
  content : String
  promptTemplateId : Option String
  modelUsed : Option String
  confidence : Option ℚ
  status : String
  reviewedBy : Option String
  reviewedAt : Option Nat
  createdAt : Nat
deriving DecidableEq, Repr

/-- Row of the `decisions` table (`src/db/schema.ts`).  `optionsConsidered` and
`aiInputsReferenced` are JSON-array text columns, stored serialized. -/
structure Decision where
  id : String
  intentId : Option String
  decisionStatement : String
  optionsConsidered : Option String
  finalChoice : String
  humanApprover : String
  aiInputsReferenced : Option String
  decisionTimestamp : Nat
  revisitCondition : Option String
  status : String
deriving DecidableEq, Repr

/-- Row of the `intents` table (`src/db/schema.ts`). -/
structure Intent where
  id : String
  tenantId : String
  title : String
  description : Option String
  currentState : String
  createdBy : String
  createdAt : Nat
  lastHumanReviewedAt : Option Nat
  confidenceLevel : Option ℚ
  visibilityScope : String
deriving DecidableEq, Repr

/-- Row of the `edges` table (`src/db/schema.ts`). -/
structure Edge where
  id : String
  sourceId : String
  sourceType : String
  targetId : String
  targetType : String
  edgeType : String
  createdAt : Nat
  createdBy : String
deriving DecidableEq, Repr

/-- `CreateDecisionSchema` from `src/lib/types.ts`. -/
structure CreateDecisionInput where
  intentId : String
  decisionStatement : String
  optionsConsidered : Option (List String)
  finalChoice : String
  revisitCondition : Option String
  aiInputsReferenced : Option (List String)
deriving DecidableEq, Repr

/-- `CreateIntentSchema` from `src/lib/types.ts` (after zod defaulting, so
`visibilityScope` is always present). -/
structure CreateIntentInput where
  title : String
  description : Option String
  confidenceLevel : Option ℚ
  visibilityScope : String
deriving DecidableEq, Repr

/-- `UpdateIntentSchema = CreateIntentSchema.partial()` from `src/lib/types.ts`:
every key optional, and a drizzle `.set` only touches the keys present.
There is no `currentState` key in this schema. -/
structure UpdateIntentInput where
  title : Option String
  description : Option String
  confidenceLevel : Option ℚ
  visibilityScope : Option String
deriving DecidableEq, Repr

/-! ## JSON serialization of string arrays

`DecisionService.commit` stores `optionsConsidered` / `aiInputsReferenced` via
`JSON.stringify`.  We model `JSON.stringify` on an array of strings, including
its escaping of `"`, `\` and the common control characters, together with a
parser used to express that the serialized form preserves contents and order. -/

/-- JSON escape of one character, as produced by `JSON.stringify`.
(Other control characters below 0x20 get `\u` escapes in real JSON; no string
the services store ever contains them, so they are left verbatim here.) -/
def jsonEscapeChar (c : Char) : List Char :=
  if c = '"' then ['\\', '"']
  else if c = '\\' then ['\\', '\\']
  else if c = '\n' then ['\\', 'n']
  else if c = '\t' then ['\\', 't']
  else if c = '\r' then ['\\', 'r']
  else if c = Char.ofNat 8 then ['\\', 'b']
  else if c = Char.ofNat 12 then ['\\', 'f']
  else [c]

/-- `JSON.stringify` of a single string. -/
def jsonStringifyString (s : String) : String :=
  "\"" ++ String.mk (s.toList.flatMap jsonEscapeChar) ++ "\""

/-- `JSON.stringify` of an array of strings. -/
def jsonStringifyStringArray (l : List String) : String :=
  "[" ++ String.intercalate "," (l.map jsonStringifyString) ++ "]"

/-- Inverse of `jsonEscapeChar` on the character following a backslash. -/
def jsonUnescapeChar (c : Char) : Option Char :=
  if c = '"' then some '"'
  else if c = '\\' then some '\\'
  else if c = 'n' then some '\n'
  else if c = 't' then some '\t'
  else if c = 'r' then some '\r'
  else if c = 'b' then some (Char.ofNat 8)
  else if c = 'f' then some (Char.ofNat 12)
  else none

/-- Parse the body of a JSON string up to its closing quote (fuelled). -/
def parseStringBody : Nat → List Char → Option (List Char × List Char)
  | 0, _ => none
  | _, [] => none
  | fuel + 1, c :: rest =>
    if c = '"' then some ([], rest)
    else if c = '\\' then
      match rest with
      | [] => none
      | e :: rest2 =>
        match jsonUnescapeChar e, parseStringBody fuel rest2 with
        | some d, some (s, rem) => some (d :: s, rem)
        | _, _ => none
    else
      match parseStringBody fuel rest with
      | some (s, rem) => some (c :: s, rem)
      | none => none

/-- Parse a comma-separated, `]`-terminated sequence of JSON strings (fuelled). -/
def parseArrayItems : Nat → List Char → Option (List String × List Char)
  | 0, _ => none
  | _, [] => none
  | fuel + 1, c :: rest =>
    if c = '"' then
      match parseStringBody (rest.length + 1) rest with
      | none => none
      | some (s, rem) =>
        match rem with
        | ']' :: rem2 => some ([String.mk s], rem2)
        | ',' :: rem2 =>
          match parseArrayItems fuel rem2 with
          | some (ss, rem3) => some (String.mk s :: ss, rem3)
          | none => none
        | _ => none
    else none

/-- Parse a JSON array of strings, the inverse of `jsonStringifyStringArray`. -/
def jsonParseStringArray (s : String) : Option (List String) :=
  match s.toList with
  | '[' :: rest =>
    match rest with
    | [']'] => some []
    | _ =>
      match parseArrayItems (rest.length + 1) rest with
      | some (ss, []) => some ss
      | _ => none
  | _ => none

/-! ## Proposal review workflow (`src/services/ingestion.service.ts`)

`acceptProposal`, `rejectProposal` and `parkProposal` each begin with
`const [proposal] = await db.select().from(aiProposals).where(eq(aiProposals.id, proposalId))`.
`acceptProposal` then rejects a non-`pending` proposal with the message
`` `Proposal already ${proposal.status}` ``; `rejectProposal` and `parkProposal`
have no such check and update unconditionally once the row exists.
`acceptProposal` carries a TODO in place of materializing the accepted entity,
so the `decisions` table is never written by any review action; the state the
workflow touches is therefore modelled as both tables together. -/

/-- The database state the ingestion service can see: the proposal queue plus
the decision ledger (which `acceptProposal` is specified to write into). -/
structure IngestionDb where
  aiProposals : List AiProposal
  decisions : List Decision
deriving DecidableEq, Repr

/-- Result shape `{ success: boolean; error?: string }` of the review actions. -/
structure ReviewResult where
  success : Bool
  error : Option String
deriving DecidableEq, Repr

/-- `const [proposal] = await db.select().from(aiProposals).where(eq(aiProposals.id, proposalId))`. -/
def selectProposal (rows : List AiProposal) (proposalId : String) : Option AiProposal :=
  (rows.filter (fun p => p.id == proposalId)).head?

/-- `IngestionService.acceptProposal` (`src/services/ingestion.service.ts`).
Guards on existence and on `status !== 'pending'`, then updates the proposal
row; the TODO entity materialization writes nothing, so `decisions` is
untouched. -/
def acceptProposal (st : IngestionDb) (proposalId userId : String) (now : Nat) :
    ReviewResult × IngestionDb :=
  match selectProposal st.aiProposals proposalId with
  | none => ({ success := false, error := some "Proposal not found" }, st)
  | some proposal =>
    if proposal.status != "pending" then
      ({ success := false, error := some ("Proposal already " ++ proposal.status) }, st)
    else
      ({ success := true, error := none },
       { st with aiProposals := st.aiProposals.map (fun p =>
           if p.id == proposalId then
             { p with status := "accepted", reviewedBy := some userId, reviewedAt := some now }
           else p) })

/-- `IngestionService.rejectProposal` (`src/services/ingestion.service.ts`).
Checks existence only — there is no `pending` guard — then updates. -/
def rejectProposal (st : IngestionDb) (proposalId userId : String) (now : Nat) :
    ReviewResult × IngestionDb :=
  match selectProposal st.aiProposals proposalId with
  | none => ({ success := false, error := some "Proposal not found" }, st)
  | some _ =>
    ({ success := true, error := none },
     { st with aiProposals := st.aiProposals.map (fun p =>
         if p.id == proposalId then
           { p with status := "rejected", reviewedBy := some userId, reviewedAt := some now }
         else p) })

/-- `IngestionService.parkProposal` (`src/services/ingestion.service.ts`).
Checks existence only — there is no `pending` guard — then updates. -/
def parkProposal (st : IngestionDb) (proposalId userId : String) (now : Nat) :
    ReviewResult × IngestionDb :=
  match selectProposal st.aiProposals proposalId with
  | none => ({ success := false, error := some "Proposal not found" }, st)
  | some _ =>
    ({ success := true, error := none },
     { st with aiProposals := st.aiProposals.map (fun p =>
         if p.id == proposalId then
           { p with status := "parked", reviewedBy := some userId, reviewedAt := some now }
         else p) })

/-- `IngestionService.getPendingProposals` (`src/services/ingestion.service.ts`):
`db.select().from(aiProposals).where(eq(aiProposals.intentId, intentId))` —
the filter is on `intentId` alone, with no condition on `status`. -/
def getPendingProposals (rows : List AiProposal) (intentId : String) : List AiProposal :=
  rows.filter (fun p => p.intentId == some intentId)

/-! ## Decision ledger (`src/services/decision.service.ts`)

`commit` appends a new `active` row (the Brain-memory sync and bridge emission
are fire-and-forget side effects with no effect on the table).  `supersede`
reads the original by id, bails out (`return null`) before any write when the
row is absent or not `active`, then flips the original's status with one
`db.update` and inserts the replacement through a nested `commit`, appending
the back-reference `` `supersedes:${originalId}` `` to `aiInputsReferenced`. -/

/-- `DecisionService.getById`: first row with the given id (no tenant filter). -/
def getDecisionById (rows : List Decision) (id : String) : Option Decision :=
  (rows.filter (fun d => d.id == id)).head?

/-- `DecisionService.commit` (`src/services/decision.service.ts`): build the new
row (`JSON.stringify` on the optional arrays, `status = 'active'`,
`humanApprover = userId`) and append it; `_tenantId` only feeds the best-effort
memory sync, which writes nothing to the table. -/
def commit (rows : List Decision) (_tenantId userId : String)
    (input : CreateDecisionInput) (id : String) (now : Nat) :
    Decision × List Decision :=
  let newDecision : Decision :=
    { id := id
      intentId := some input.intentId
      decisionStatement := input.decisionStatement
      optionsConsidered := input.optionsConsidered.map jsonStringifyStringArray
      finalChoice := input.finalChoice
      humanApprover := userId
      aiInputsReferenced := input.aiInputsReferenced.map jsonStringifyStringArray
      decisionTimestamp := now
      revisitCondition := input.revisitCondition
      status := "active" }
  (newDecision, rows ++ [newDecision])

/-- `DecisionService.supersede` (`src/services/decision.service.ts`). -/
def supersede (rows : List Decision) (tenantId userId originalId : String)
    (newInput : CreateDecisionInput) (newId : String) (now : Nat) :
    Option (Decision × Decision) × List Decision :=
  match getDecisionById rows originalId with
  | none => (none, rows)
  | some original =>
    if original.status != "active" then (none, rows)
    else
      let flipped := rows.map (fun d =>
        if d.id == originalId then { d with status := "superseded" } else d)
      let refs := (newInput.aiInputsReferenced.getD []) ++ ["supersedes:" ++ originalId]
      let step := commit flipped tenantId userId
        { newInput with aiInputsReferenced := some refs } newId now
      (some ({ original with status := "superseded" }, step.1), step.2)

/-- `DecisionService.supersede` with the nested insert made fallible:
`insertOk = false` models the `db.insert` inside the nested `commit` throwing
a storage error.  The `db.update` flipping the original has already been
awaited when the insert runs, and the method wraps the two writes in no
transaction and has no compensating rollback, so on failure the exception
propagates while the flipped table persists. -/
def supersedeWithInsert (insertOk : Bool) (rows : List Decision)
    (tenantId userId originalId : String) (newInput : CreateDecisionInput)
    (newId : String) (now : Nat) :
    Except String (Option (Decision × Decision)) × List Decision :=
  match getDecisionById rows originalId with
  | none => (Except.ok none, rows)
  | some original =>
    if original.status != "active" then (Except.ok none, rows)
    else
      let flipped := rows.map (fun d =>
        if d.id == originalId then { d with status := "superseded" } else d)
      if insertOk then
        let refs := (newInput.aiInputsReferenced.getD []) ++ ["supersedes:" ++ originalId]
        let step := commit flipped tenantId userId
          { newInput with aiInputsReferenced := some refs } newId now
        (Except.ok (some ({ original with status := "superseded" }, step.1)), step.2)
      else
        (Except.error "insert failed", flipped)

/-- Insert a decision into a list ascending by `decisionTimestamp` (stable). -/
def insertAsc (d : Decision) : List Decision → List Decision
  | [] => [d]
  | x :: xs =>
    if d.decisionTimestamp ≤ x.decisionTimestamp then d :: x :: xs
    else x :: insertAsc d xs

/-- `ORDER BY decision_timestamp` ascending, as stable insertion sort. -/
def sortAscByTimestamp : List Decision → List Decision
  | [] => []
  | x :: xs => insertAsc x (sortAscByTimestamp xs)

/-- Insert a decision into a list descending by `decisionTimestamp` (stable). -/
def insertDesc (d : Decision) : List Decision → List Decision
  | [] => [d]
  | x :: xs =>
    if d.decisionTimestamp ≥ x.decisionTimestamp then d :: x :: xs
    else x :: insertDesc d xs

/-- `ORDER BY desc(decision_timestamp)`, as stable insertion sort. -/
def sortDescByTimestamp : List Decision → List Decision
  | [] => []
  | x :: xs => insertDesc x (sortDescByTimestamp xs)

/-- `DecisionService.getLedger`: rows of the intent in ascending
`decisionTimestamp` order (full audit trail, superseded included). -/
def getLedger (rows : List Decision) (intentId : String) : List Decision :=
  sortAscByTimestamp (rows.filter (fun d => d.intentId == some intentId))

/-- `DecisionService.listByIntent`: rows of the intent, descending order. -/
def listByIntent (rows : List Decision) (intentId : String) : List Decision :=
  sortDescByTimestamp (rows.filter (fun d => d.intentId == some intentId))

/-- `DecisionService.getActiveByIntent`: rows of the intent with
`status = 'active'`, descending order. -/
def getActiveByIntent (rows : List Decision) (intentId : String) : List Decision :=
  sortDescByTimestamp (rows.filter (fun d =>
    d.intentId == some intentId && d.status == "active"))

/-! ## Intent lifecycle (`src/services/intent.service.ts`) -/

/-- The `VALID_TRANSITIONS` record of `src/services/intent.service.ts`; the
service reads it as `VALID_TRANSITIONS[currentState] || []`, so a state
outside the four keys gets the empty allowed set. -/
def VALID_TRANSITIONS (s : String) : List String :=
  if s = "research" then ["planning", "archived"]
  else if s = "planning" then ["research", "execution", "archived"]
  else if s = "execution" then ["planning", "archived"]
  else []

/-- Result shape `{ success: boolean; intent?: Intent; error?: string }`. -/
structure TransitionResult where
  success : Bool
  intent : Option Intent
  error : Option String
deriving DecidableEq, Repr

/-- `IntentService.getById`: first row matching both id and tenant. -/
def getIntentById (rows : List Intent) (tenantId id : String) : Option Intent :=
  (rows.filter (fun i => i.id == id && i.tenantId == tenantId)).head?

/-- `allowedTransitions.join(', ') || 'none'` in the `InvalidTransition`
message of `IntentService.transition`. -/
def allowedJoin (allowed : List String) : String :=
  if String.intercalate ", " allowed = "" then "none"
  else String.intercalate ", " allowed

/-- `IntentService.create`: inserts a row that always starts in `research`;
`createdAt` comes from the column default, `lastHumanReviewedAt` is unset. -/
def createIntent (rows : List Intent) (tenantId userId : String)
    (input : CreateIntentInput) (id : String) (now : Nat) :
    Intent × List Intent :=
  let newIntent : Intent :=
    { id := id
      tenantId := tenantId
      title := input.title
      description := input.description
      currentState := "research"
      createdBy := userId
      createdAt := now
      lastHumanReviewedAt := none
      confidenceLevel := input.confidenceLevel
      visibilityScope := input.visibilityScope }
  (newIntent, rows ++ [newIntent])

/-- The drizzle `.set(input)` of `IntentService.update`: only the keys present
in the partial input are written; `currentState` is not a key of
`UpdateIntentInput`, so it is never written. -/
def applyIntentUpdate (input : UpdateIntentInput) (i : Intent) : Intent :=
  { i with
    title := input.title.getD i.title
    description := match input.description with
      | some d => some d
      | none => i.description
    confidenceLevel := match input.confidenceLevel with
      | some c => some c
      | none => i.confidenceLevel
    visibilityScope := input.visibilityScope.getD i.visibilityScope }

/-- `IntentService.update`: returns `null` without writing when the intent is
absent, otherwise applies the partial update to the matching rows and returns
the first updated row. -/
def updateIntent (rows : List Intent) (tenantId id : String)
    (input : UpdateIntentInput) : Option Intent × List Intent :=
  match getIntentById rows tenantId id with
  | none => (none, rows)
  | some _ =>
    let rows2 := rows.map (fun i =>
      if i.id == id && i.tenantId == tenantId then applyIntentUpdate input i else i)
    (getIntentById rows2 tenantId id, rows2)

/-- `IntentService.transition` (`src/services/intent.service.ts`): `NotFound`
when the intent is absent under the tenant, `InvalidTransition` (naming current
state, target state and the allowed set) when the target is not allowed, and on
success `currentState := newState` and `lastHumanReviewedAt := now` on the
matching rows.  The bridge event emission is a TODO and writes nothing. -/
def transition (rows : List Intent) (tenantId _userId id newState : String)
    (now : Nat) : TransitionResult × List Intent :=
  match getIntentById rows tenantId id with
  | none => ({ success := false, intent := none, error := some "Intent not found" }, rows)
  | some intent =>
    let currentState := intent.currentState
    let allowed := VALID_TRANSITIONS currentState
    if ¬ allowed.contains newState then
      ({ success := false, intent := none
         error := some ("Invalid transition: " ++ currentState ++ " → " ++ newState ++
           ". Allowed: " ++ allowedJoin allowed) }, rows)
    else
      let rows2 := rows.map (fun i =>
        if i.id == id && i.tenantId == tenantId then
          { i with currentState := newState, lastHumanReviewedAt := some now }
        else i)
      ({ success := true, intent := getIntentById rows2 tenantId id, error := none }, rows2)

/-- `IntentService.markReviewed`: sets `lastHumanReviewedAt` only. -/
def markReviewed (rows : List Intent) (tenantId id : String) (now : Nat) :
    Option Intent × List Intent :=
  let rows2 := rows.map (fun i =>
    if i.id == id && i.tenantId == tenantId then { i with lastHumanReviewedAt := some now }
    else i)
  (getIntentById rows2 tenantId id, rows2)

/-! ## Knowledge-graph edge store (`src/services/edge.service.ts`) -/

/-- `EdgeService.getByNode`: `where(or(eq(sourceId, n), eq(targetId, n)))`. -/
def getByNode (rows : List Edge) (nodeId : String) : List Edge :=
  rows.filter (fun e => e.sourceId == nodeId || e.targetId == nodeId)

/-- `EdgeService.getOutgoing`: `where(eq(sourceId, n))`. -/
def getOutgoing (rows : List Edge) (nodeId : String) : List Edge :=
  rows.filter (fun e => e.sourceId == nodeId)

/-- `EdgeService.getIncoming`: `where(eq(targetId, n))`. -/
def getIncoming (rows : List Edge) (nodeId : String) : List Edge :=
  rows.filter (fun e => e.targetId == nodeId)

/-! ## General lemmas -/

/-- Updating exactly the rows matched by `pred` (with an update `f` that
preserves `pred`) turns the first matching row `p` into `f p`: the `List`
counterpart of `db.update.set.where(cond)` followed by re-selecting on the
same condition. -/
theorem find?_map_update {α : Type} (pred : α → Bool) (f : α → α)
    (hf : ∀ x, pred (f x) = pred x) (rows : List α) (p : α)
    (h : rows.find? pred = some p) :
    (rows.map (fun x => if pred x then f x else x)).find? pred = some (f p) := by
  induction rows with
  | nil => simp at h
  | cons a l ih =>
    by_cases ha : pred a = true
    · rw [List.find?_cons_of_pos _ ha] at h
      injection h with h
      subst h
      simp only [List.map_cons, if_pos ha]
      exact List.find?_cons_of_pos _ (by rw [hf]; exact ha)
    · rw [List.find?_cons_of_neg _ ha] at h
      simp only [List.map_cons]
      rw [if_neg ha, List.find?_cons_of_neg _ ha]
      exact ih h

/-- Variant of `find?_map_update` phrased on `head?` of `filter`, the shape in
which the services re-select a row after a `db.update`. -/
theorem head_filter_update {α : Type} (pred : α → Bool) (f : α → α)
    (hf : ∀ x, pred (f x) = pred x) (rows : List α) (p : α)
    (h : (rows.filter pred).head? = some p) :
    ((rows.map (fun x => if pred x then f x else x)).filter pred).head? = some (f p) := by
  rw [List.filter_head?] at h ⊢
  exact find?_map_update pred f hf rows p h

/-- Faithfulness of the fallible supersede model: with a succeeding insert it
coincides with `supersede`. -/
theorem supersedeWithInsert_true_eq (rows : List Decision)
    (tenantId userId originalId : String) (newInput : CreateDecisionInput)
    (newId : String) (now : Nat) :
    supersedeWithInsert true rows tenantId userId originalId newInput newId now =
      (Except.ok (supersede rows tenantId userId originalId newInput newId now).1,
       (supersede rows tenantId userId originalId newInput newId now).2) := by
  unfold supersedeWithInsert supersede
  cases h : getDecisionById rows originalId with
  | none => rfl
  | some original =>
    cases hs : original.status != "active" <;> simp [hs]

/-! ## Claim theorems -/

/-- C8: for every node id `n` and every edge store, `getByNode n` is exactly
the union of `getOutgoing n` and `getIncoming n`, and it contains each stored
edge touching `n` (self-loops included) exactly as often as the store does —
a self-loop is not doubled even though it satisfies both directional filters. -/
theorem C8_getByNode_union (rows : List Edge) (n : String) (e : Edge) :
    (e ∈ getByNode rows n ↔ e ∈ getOutgoing rows n ∨ e ∈ getIncoming rows n) ∧
    (getByNode rows n).count e =
      (if e.sourceId = n ∨ e.targetId = n then rows.count e else 0) := by
  refine ⟨?_, ?_⟩
  · simp only [getByNode, getOutgoing, getIncoming, List.mem_filter, Bool.or_eq_true,
      beq_iff_eq]
    tauto
  · by_cases h : e.sourceId = n ∨ e.targetId = n
    · rw [if_pos h]
      exact List.count_filter (by simpa using h)
    · rw [if_neg h]
      rw [List.count_eq_zero]
      intro hmem
      rcases List.mem_filter.1 hmem with ⟨_, hp⟩
      simp only [Bool.or_eq_true, beq_iff_eq] at hp
      exact h hp

/-- C10: `getPendingProposals` filters on `intentId` alone, so it returns
every stored proposal of the intent regardless of review status — accepted,
rejected and parked proposals are returned alongside pending ones. -/
theorem C10_getPendingProposals_ignores_status
    (rows : List AiProposal) (iid : String) (p : AiProposal) :
    p ∈ getPendingProposals rows iid ↔ p ∈ rows ∧ p.intentId = some iid := by
  simp [getPendingProposals, List.mem_filter]

/-- Concrete pending proposal used to exhibit the missing guard of
`rejectProposal` / `parkProposal`. -/
def c1Proposal : AiProposal :=
  { id := "p1", intentId := some "I", proposalType := "decision",
    content := "c", promptTemplateId := some "extraction_v1",
    modelUsed := some "m", confidence := some 1, status := "pending",
    reviewedBy := none, reviewedAt := none, createdAt := 0 }

/-- C1 counterexample: on a queue holding one pending proposal `p1`, after a
first successful `acceptProposal` a subsequent `rejectProposal` on the same id
does not fail with an `AlreadyReviewed` error — it succeeds and overwrites
`status`, `reviewedBy` and `reviewedAt`, contradicting the claim that any
subsequent review call fails and leaves the first review's fields intact. -/
theorem C1_counterexample :
    (rejectProposal (acceptProposal ⟨[c1Proposal], []⟩ "p1" "alice" 100).2
        "p1" "bob" 200).1.success = true ∧
    selectProposal
        (rejectProposal (acceptProposal ⟨[c1Proposal], []⟩ "p1" "alice" 100).2
          "p1" "bob" 200).2.aiProposals "p1" =
      some { c1Proposal with
             status := "rejected"
             reviewedBy := some "bob"
             reviewedAt := some 200 } := by
  decide

/-- C1 amended: only `acceptProposal` enforces single-shot review — on a
proposal whose status is not `pending` it fails with an error naming the
current status and leaves the state untouched, while on a pending proposal it
succeeds and stamps the review fields.  `rejectProposal` and `parkProposal`
check only existence: on any existing proposal, whatever its status, they
succeed and overwrite `status`, `reviewedBy` and `reviewedAt`. -/
theorem C1_review_guards (st : IngestionDb) (pid uid : String) (now : Nat)
    (p : AiProposal) (hsel : selectProposal st.aiProposals pid = some p) :
    (p.status ≠ "pending" →
       acceptProposal st pid uid now =
         ({ success := false, error := some ("Proposal already " ++ p.status) }, st)) ∧
    (p.status = "pending" →
       (acceptProposal st pid uid now).1 = { success := true, error := none } ∧
       selectProposal (acceptProposal st pid uid now).2.aiProposals pid =
         some { p with
                status := "accepted"
                reviewedBy := some uid
                reviewedAt := some now }) ∧
    ((rejectProposal st pid uid now).1 = { success := true, error := none } ∧
     selectProposal (rejectProposal st pid uid now).2.aiProposals pid =
       some { p with
              status := "rejected"
              reviewedBy := some uid
              reviewedAt := some now }) ∧
    ((parkProposal st pid uid now).1 = { success := true, error := none } ∧
     selectProposal (parkProposal st pid uid now).2.aiProposals pid =
       some { p with
              status := "parked"
              reviewedBy := some uid
              reviewedAt := some now }) := by
  have hsel' : (st.aiProposals.filter (fun q => q.id == pid)).head? = some p := hsel
  refine ⟨?_, ?_, ?_, ?_⟩
  · intro hne
    have hb : (p.status != "pending") = true := by simpa using hne
    simp [acceptProposal, hsel, hb]
  · intro hpe
    have hb : (p.status != "pending") = false := by simp [hpe]
    simp only [acceptProposal, hsel, hb, Bool.false_eq_true, if_false]
    refine ⟨by trivial, ?_⟩
    exact head_filter_update (fun q => q.id == pid)
      (fun q => { q with status := "accepted", reviewedBy := some uid, reviewedAt := some now })
      (fun _ => rfl) st.aiProposals p hsel'
  · simp only [rejectProposal, hsel]
    refine ⟨by trivial, ?_⟩
    exact head_filter_update (fun q => q.id == pid)
      (fun q => { q with status := "rejected", reviewedBy := some uid, reviewedAt := some now })
      (fun _ => rfl) st.aiProposals p hsel'
  · simp only [parkProposal, hsel]
    refine ⟨by trivial, ?_⟩
    exact head_filter_update (fun q => q.id == pid)
      (fun q => { q with status := "parked", reviewedBy := some uid, reviewedAt := some now })
      (fun _ => rfl) st.aiProposals p hsel'

/-- Concrete already-accepted proposal for the C1 witness. -/
def c1wProposal : AiProposal :=
  { id := "p9", intentId := some "I", proposalType := "risk",
    content := "c", promptTemplateId := none,
    modelUsed := none, confidence := none, status := "accepted",
    reviewedBy := some "alice", reviewedAt := some 50, createdAt := 0 }

/-- Witness for `C1_review_guards` at a concrete already-reviewed proposal. -/
theorem C1_review_guards_witness :
    c1wProposal.status ≠ "pending" ∧
    acceptProposal ⟨[c1wProposal], []⟩ "p9" "bob" 60 =
      ({ success := false, error := some ("Proposal already " ++ c1wProposal.status) },
       ⟨[c1wProposal], []⟩) ∧
    (rejectProposal ⟨[c1wProposal], []⟩ "p9" "bob" 60).1 =
      { success := true, error := none } :=
  ⟨by decide,
   (C1_review_guards ⟨[c1wProposal], []⟩ "p9" "bob" 60 c1wProposal (by decide)).1 (by decide),
   ((C1_review_guards ⟨[c1wProposal], []⟩ "p9" "bob" 60 c1wProposal (by decide)).2.2.1).1⟩

/-- Concrete pending `decision`-typed proposal for the C2 evidence theorem. -/
def c2Proposal : AiProposal :=
  { id := "p2", intentId := some "I", proposalType := "decision",
    content := "statement: Use Postgres", promptTemplateId := some "extraction_v1",
    modelUsed := some "m", confidence := some 1, status := "pending",
    reviewedBy := none, reviewedAt := none, createdAt := 0 }

/-- C2 evidence: `acceptProposal` on a pending `decision`-typed proposal
succeeds and sets `status`, `reviewedBy` and `reviewedAt` on the proposal row,
but writes nothing to the decision ledger (the entity materialization is an
unimplemented TODO in `IngestionService.acceptProposal`), so no new Decision
is persisted. -/
theorem C2_accept_persists_no_decision :
    (acceptProposal ⟨[c2Proposal], []⟩ "p2" "alice" 7).1.success = true ∧
    (acceptProposal ⟨[c2Proposal], []⟩ "p2" "alice" 7).2.aiProposals =
      [{ c2Proposal with
         status := "accepted"
         reviewedBy := some "alice"
         reviewedAt := some 7 }] ∧
    (acceptProposal ⟨[c2Proposal], []⟩ "p2" "alice" 7).2.decisions = [] := by
  decide

/-- Concrete active decision for the C6 evidence theorem. -/
def c6Original : Decision :=
  { id := "d1", intentId := some "I", decisionStatement := "db choice",
    optionsConsidered := none, finalChoice := "Use Postgres",
    humanApprover := "alice", aiInputsReferenced := none,
    decisionTimestamp := 1, revisitCondition := none, status := "active" }

/-- Replacement input for the C6 evidence theorem. -/
def c6Input : CreateDecisionInput :=
  { intentId := "I", decisionStatement := "db choice",
    optionsConsidered := none, finalChoice := "Use SQLite",
    revisitCondition := none, aiInputsReferenced := none }

/-- C6 evidence: when the replacement insert inside `supersede` fails after
the original's status flip has been applied, the error propagates and the
table is left with the original superseded and no replacement committed —
the two writes are not one atomic unit (no transaction, no compensation). -/
theorem C6_partial_failure :
    (supersedeWithInsert false [c6Original] "t" "u" "d1" c6Input "d2" 2).1 =
      Except.error "insert failed" ∧
    (supersedeWithInsert false [c6Original] "t" "u" "d1" c6Input "d2" 2).2 =
      [{ c6Original with status := "superseded" }] :=
  ⟨rfl, rfl⟩

/-- C3: `transition` fails with `Intent not found` when no intent with the id
exists under the tenant; fails with an `Invalid transition` error naming the
current state, the target state and the allowed set whenever the target is not
in the current state's allowed set from `VALID_TRANSITIONS`; on any failure the
table is unchanged; on success it sets `currentState := target` and
`lastHumanReviewedAt := now`. -/
theorem C3_transition_spec (rows : List Intent) (tid uid iid target : String)
    (now : Nat) :
    (getIntentById rows tid iid = none →
       transition rows tid uid iid target now =
         ({ success := false, intent := none, error := some "Intent not found" }, rows)) ∧
    (∀ i, getIntentById rows tid iid = some i →
       target ∉ VALID_TRANSITIONS i.currentState →
       transition rows tid uid iid target now =
         ({ success := false
            intent := none
            error := some ("Invalid transition: " ++ i.currentState ++ " → " ++ target ++
              ". Allowed: " ++ allowedJoin (VALID_TRANSITIONS i.currentState)) }, rows)) ∧
    (∀ i, getIntentById rows tid iid = some i →
       target ∈ VALID_TRANSITIONS i.currentState →
       (transition rows tid uid iid target now).1.success = true ∧
       (transition rows tid uid iid target now).1.error = none ∧
       (transition rows tid uid iid target now).1.intent =
         some { i with currentState := target, lastHumanReviewedAt := some now } ∧
       (transition rows tid uid iid target now).2 =
         rows.map (fun r =>
           if r.id == iid && r.tenantId == tid then
             { r with currentState := target, lastHumanReviewedAt := some now }
           else r)) := by
  refine ⟨?_, ?_, ?_⟩
  · intro h
    simp [transition, h]
  · intro i hi hnt
    simp [transition, hi, hnt]
  · intro i hi ht
    have hi' : (rows.filter (fun r => r.id == iid && r.tenantId == tid)).head? = some i := hi
    have hc : ((VALID_TRANSITIONS i.currentState).contains target) = true := by
      simpa using ht
    simp only [transition, hi, hc, Bool.true_eq_false, not_true_eq_false, if_false,
      not_false_eq_true, if_true]
    refine ⟨by trivial, by trivial, ?_, by trivial⟩
    exact head_filter_update (fun r => r.id == iid && r.tenantId == tid)
      (fun r => { r with currentState := target, lastHumanReviewedAt := some now })
      (fun _ => rfl) rows i hi'

/-- Concrete research-state intent for the C3 witness. -/
def c3Intent : Intent :=
  { id := "i1", tenantId := "t", title := "T", description := none,
    currentState := "research", createdBy := "u", createdAt := 0,
    lastHumanReviewedAt := none, confidenceLevel := none, visibilityScope := "team" }

/-- Witness for `C3_transition_spec`: a missing intent yields `NotFound`, a
research-state intent refuses `execution` with the full message, and accepts
`planning`. -/
theorem C3_transition_spec_witness :
    transition ([] : List Intent) "t" "u" "i1" "planning" 5 =
      ({ success := false, intent := none, error := some "Intent not found" }, []) ∧
    transition [c3Intent] "t" "u" "i1" "execution" 5 =
      ({ success := false
         intent := none
         error := some ("Invalid transition: " ++ c3Intent.currentState ++ " → " ++
           "execution" ++ ". Allowed: " ++
           allowedJoin (VALID_TRANSITIONS c3Intent.currentState)) }, [c3Intent]) ∧
    (transition [c3Intent] "t" "u" "i1" "planning" 5).1.success = true :=
  ⟨(C3_transition_spec [] "t" "u" "i1" "planning" 5).1 (by decide),
   (C3_transition_spec [c3Intent] "t" "u" "i1" "execution" 5).2.1 c3Intent
     (by decide) (by decide),
   ((C3_transition_spec [c3Intent] "t" "u" "i1" "planning" 5).2.2 c3Intent
     (by decide) (by decide)).1⟩

/-- C4: `supersede` on an id with no decision, or on a decision whose status is
not `active`, returns `null` and performs no writes; any pre-existing row
either survives untouched or — only if it was `active` — reappears with status
`superseded`; and `commit` never removes or alters existing rows.  Together:
in every reachable ledger (statuses `active`/`superseded` only) a decision's
status changes at most once, from `active` to `superseded`. -/
theorem C4_supersede_guard (rows : List Decision) (tid uid oid : String)
    (inp : CreateDecisionInput) (nid : String) (now : Nat) :
    (getDecisionById rows oid = none →
       supersede rows tid uid oid inp nid now = (none, rows)) ∧
    (∀ d, getDecisionById rows oid = some d → d.status ≠ "active" →
       supersede rows tid uid oid inp nid now = (none, rows)) ∧
    ((∀ r ∈ rows, r.status = "active" ∨ r.status = "superseded") →
       ∀ r ∈ rows, r ∈ (supersede rows tid uid oid inp nid now).2 ∨
         (r.status = "active" ∧
          { r with status := "superseded" } ∈ (supersede rows tid uid oid inp nid now).2)) ∧
    (∀ r ∈ rows, r ∈ (commit rows tid uid inp nid now).2) := by
  refine ⟨?_, ?_, ?_, ?_⟩
  · intro h
    simp [supersede, h]
  · intro d hd hs
    have hb : (d.status != "active") = true := by simpa using hs
    simp [supersede, hd, hb]
  · intro hreach r hr
    cases h : getDecisionById rows oid with
    | none =>
      simp only [supersede, h]
      exact Or.inl hr
    | some d =>
      cases hb : (d.status != "active") with
      | true =>
        simp only [supersede, h, hb, if_true]
        exact Or.inl hr
      | false =>
        simp only [supersede, h, hb, Bool.false_eq_true, if_false]
        by_cases hid : (r.id == oid) = true
        · rcases hreach r hr with hact | hsup
          · refine Or.inr ⟨hact, ?_⟩
            refine List.mem_append_left _ ?_
            have hm := List.mem_map_of_mem
              (f := fun d => if d.id == oid then { d with status := "superseded" } else d) hr
            simpa [hid] using hm
          · refine Or.inl ?_
            refine List.mem_append_left _ ?_
            have hm := List.mem_map_of_mem
              (f := fun d => if d.id == oid then { d with status := "superseded" } else d) hr
            have heq : { r with status := "superseded" } = r := by
              cases r
              simp_all
            simpa [hid, heq] using hm
        · refine Or.inl ?_
          refine List.mem_append_left _ ?_
          have hm := List.mem_map_of_mem
            (f := fun d => if d.id == oid then { d with status := "superseded" } else d) hr
          simpa [hid] using hm
  · intro r hr
    simp only [commit]
    exact List.mem_append_left _ hr

/-- Concrete already-superseded decision for the C4 witness. -/
def c4Decision : Decision :=
  { id := "d1", intentId := some "I", decisionStatement := "db choice",
    optionsConsidered := none, finalChoice := "Use Postgres",
    humanApprover := "alice", aiInputsReferenced := none,
    decisionTimestamp := 1, revisitCondition := none, status := "superseded" }

/-- Replacement input for the C4 witness. -/
def c4Input : CreateDecisionInput :=
  { intentId := "I", decisionStatement := "db choice",
    optionsConsidered := none, finalChoice := "Use SQLite",
    revisitCondition := none, aiInputsReferenced := none }

/-- Witness for `C4_supersede_guard`: a second supersede of an already
superseded decision fails and writes nothing. -/
theorem C4_supersede_guard_witness :
    c4Decision.status ≠ "active" ∧
    supersede [c4Decision] "t" "u" "d1" c4Input "d2" 9 = (none, [c4Decision]) :=
  ⟨by decide,
   (C4_supersede_guard [c4Decision] "t" "u" "d1" c4Input "d2" 9).2.1 c4Decision
     (by decide) (by decide)⟩

/-- C7: `createIntent` always starts the new row at `research` (and only
appends); `updateIntent` and `markReviewed` never change any row's
`currentState` (the update schema has no such key); and from `archived` no
transition ever succeeds — the state can never change again. -/
theorem C7_currentState_invariants (rows : List Intent) (tid uid iid target : String)
    (cinp : CreateIntentInput) (uinp : UpdateIntentInput) (nid : String) (now : Nat) :
    ((createIntent rows tid uid cinp nid now).1.currentState = "research" ∧
     (createIntent rows tid uid cinp nid now).2 =
       rows ++ [(createIntent rows tid uid cinp nid now).1]) ∧
    ((updateIntent rows tid iid uinp).2.map (fun i => i.currentState) =
       rows.map (fun i => i.currentState)) ∧
    ((markReviewed rows tid iid now).2.map (fun i => i.currentState) =
       rows.map (fun i => i.currentState)) ∧
    (∀ i, getIntentById rows tid iid = some i → i.currentState = "archived" →
       (transition rows tid uid iid target now).1.success = false ∧
       (transition rows tid uid iid target now).2 = rows) := by
  refine ⟨⟨rfl, rfl⟩, ?_, ?_, ?_⟩
  · cases h : getIntentById rows tid iid with
    | none => simp [updateIntent, h]
    | some j =>
      simp only [updateIntent, h]
      rw [List.map_map]
      apply List.map_congr_left
      intro a _
      by_cases ha : (a.id == iid && a.tenantId == tid) = true
      · simp [Function.comp, ha, applyIntentUpdate]
      · simp [Function.comp, ha]
  · simp only [markReviewed]
    rw [List.map_map]
    apply List.map_congr_left
    intro a _
    by_cases ha : (a.id == iid && a.tenantId == tid) = true
    · simp [Function.comp, ha]
    · simp [Function.comp, ha]
  · intro i hi harch
    have h0 : VALID_TRANSITIONS i.currentState = [] := by
      rw [harch]
      decide
    simp [transition, hi, h0]

/-- Concrete archived intent for the C7 witness. -/
def c7Intent : Intent :=
  { id := "i7", tenantId := "t", title := "T", description := none,
    currentState := "archived", createdBy := "u", createdAt := 0,
    lastHumanReviewedAt := none, confidenceLevel := none, visibilityScope := "team" }

/-- Concrete partial update for the C7 witness. -/
def c7Update : UpdateIntentInput :=
  { title := some "T2", description := none, confidenceLevel := none,
    visibilityScope := none }

/-- Witness for `C7_currentState_invariants` on a one-row table holding an
archived intent. -/
theorem C7_currentState_invariants_witness :
    ((updateIntent [c7Intent] "t" "i7" c7Update).2.map (fun i => i.currentState) =
       [c7Intent].map (fun i => i.currentState)) ∧
    c7Intent.currentState = "archived" ∧
    (transition [c7Intent] "t" "u" "i7" "execution" 5).1.success = false ∧
    (transition [c7Intent] "t" "u" "i7" "execution" 5).2 = [c7Intent] := by
  have h := C7_currentState_invariants [c7Intent] "t" "u" "i7" "execution"
    { title := "T", description := none, confidenceLevel := none, visibilityScope := "team" }
    c7Update "i9" 5
  exact ⟨h.2.1, by decide, (h.2.2.2 c7Intent (by decide) (by decide)).1,
    (h.2.2.2 c7Intent (by decide) (by decide)).2⟩

/-- C9: a decision committed with `optionsConsidered = ["A", "B"]` is read back
by `getDecisionById` as the very row that was created, whose
`optionsConsidered` column holds the JSON serialization of `["A", "B"]`, and
parsing that serialization returns exactly `["A", "B"]` — contents and order
preserved. -/
theorem C9_options_roundtrip (rows : List Decision) (tid uid did : String)
    (input : CreateDecisionInput) (now : Nat)
    (hopts : input.optionsConsidered = some ["A", "B"])
    (hfresh : ∀ r ∈ rows, r.id ≠ did) :
    getDecisionById (commit rows tid uid input did now).2 did =
      some (commit rows tid uid input did now).1 ∧
    (commit rows tid uid input did now).1.optionsConsidered =
      some (jsonStringifyStringArray ["A", "B"]) ∧
    jsonParseStringArray (jsonStringifyStringArray ["A", "B"]) = some ["A", "B"] := by
  refine ⟨?_, ?_, by decide⟩
  · have h1 : rows.filter (fun d => d.id == did) = [] := by
      rw [List.filter_eq_nil_iff]
      intro r hr
      simpa using hfresh r hr
    simp [getDecisionById, commit, List.filter_append, h1]
  · simp [commit, hopts]

/-- Concrete commit input for the C9 witness. -/
def c9Input : CreateDecisionInput :=
  { intentId := "I", decisionStatement := "s", optionsConsidered := some ["A", "B"],
    finalChoice := "A", revisitCondition := none, aiInputsReferenced := none }

/-- Witness for `C9_options_roundtrip` on the empty ledger. -/
theorem C9_options_roundtrip_witness :
    c9Input.optionsConsidered = some ["A", "B"] ∧
    getDecisionById (commit [] "t" "u" c9Input "d1" 3).2 "d1" =
      some (commit [] "t" "u" c9Input "d1" 3).1 ∧
    jsonParseStringArray (jsonStringifyStringArray ["A", "B"]) = some ["A", "B"] :=
  ⟨rfl, (C9_options_roundtrip [] "t" "u" "d1" c9Input 3 rfl (by simp)).1,
   (C9_options_roundtrip [] "t" "u" "d1" c9Input 3 rfl (by simp)).2.2⟩

/-- C5: committing `D1` on intent `I` into an empty ledger and then
superseding it returns both the original (now superseded) and the replacement;
`getLedger I` is `[D1(superseded), D2(active)]` in ascending timestamp order;
`getActiveByIntent I` excludes the superseded original and contains exactly
the replacement; and the replacement's `aiInputsReferenced` is the caller's
sequence with the synthetic `supersedes:<id>` back-reference appended (stored
in serialized form). -/
theorem C5_supersede_scenario (tid uid1 uid2 iid id1 id2 : String)
    (in1 in2 : CreateDecisionInput) (now1 now2 : Nat)
    (h1 : in1.intentId = iid) (h2 : in2.intentId = iid) (hlt : now1 < now2) :
    ∃ d1s d2,
      (supersede (commit [] tid uid1 in1 id1 now1).2 tid uid2 id1 in2 id2 now2).1 =
        some (d1s, d2) ∧
      d1s = { (commit [] tid uid1 in1 id1 now1).1 with status := "superseded" } ∧
      d2.status = "active" ∧
      d2.aiInputsReferenced =
        some (jsonStringifyStringArray
          ((in2.aiInputsReferenced.getD []) ++ ["supersedes:" ++ id1])) ∧
      getLedger (supersede (commit [] tid uid1 in1 id1 now1).2
        tid uid2 id1 in2 id2 now2).2 iid = [d1s, d2] ∧
      getActiveByIntent (supersede (commit [] tid uid1 in1 id1 now1).2
        tid uid2 id1 in2 id2 now2).2 iid = [d2] ∧
      d1s ∉ getActiveByIntent (supersede (commit [] tid uid1 in1 id1 now1).2
        tid uid2 id1 in2 id2 now2).2 iid := by
  subst h1
  have hle := Nat.le_of_lt hlt
  refine ⟨{ id := id1
            intentId := some in1.intentId
            decisionStatement := in1.decisionStatement
            optionsConsidered := in1.optionsConsidered.map jsonStringifyStringArray
            finalChoice := in1.finalChoice
            humanApprover := uid1
            aiInputsReferenced := in1.aiInputsReferenced.map jsonStringifyStringArray
            decisionTimestamp := now1
            revisitCondition := in1.revisitCondition
            status := "superseded" },
          { id := id2
            intentId := some in2.intentId
            decisionStatement := in2.decisionStatement
            optionsConsidered := in2.optionsConsidered.map jsonStringifyStringArray
            finalChoice := in2.finalChoice
            humanApprover := uid2
            aiInputsReferenced := some (jsonStringifyStringArray
              ((in2.aiInputsReferenced.getD []) ++ ["supersedes:" ++ id1]))
            decisionTimestamp := now2
            revisitCondition := in2.revisitCondition
            status := "active" }, ?_, rfl, rfl, rfl, ?_, ?_, ?_⟩
  · simp [supersede, getDecisionById, commit]
  · simp [supersede, getDecisionById, commit, getLedger, sortAscByTimestamp,
      insertAsc, h2, hle]
  · simp [supersede, getDecisionById, commit, getActiveByIntent,
      sortDescByTimestamp, insertDesc, h2]
  · simp [supersede, getDecisionById, commit, getActiveByIntent,
      sortDescByTimestamp, insertDesc, h2]

/-- Concrete first commit input for the C5 witness. -/
def c5In1 : CreateDecisionInput :=
  { intentId := "I", decisionStatement := "db choice",
    optionsConsidered := some ["Postgres", "SQLite"], finalChoice := "Use Postgres",
    revisitCondition := none, aiInputsReferenced := none }

/-- Concrete replacement input for the C5 witness. -/
def c5In2 : CreateDecisionInput :=
  { intentId := "I", decisionStatement := "db choice",
    optionsConsidered := none, finalChoice := "Use SQLite",
    revisitCondition := none, aiInputsReferenced := some ["chat:42"] }

/-- Witness for `C5_supersede_scenario` at concrete inputs. -/
theorem C5_supersede_scenario_witness :
    c5In1.intentId = "I" ∧ c5In2.intentId = "I" ∧ (1 : Nat) < 2 ∧
    ∃ d1s d2,
      (supersede (commit [] "t" "u" c5In1 "d1" 1).2 "t" "u" "d1" c5In2 "d2" 2).1 =
        some (d1s, d2) ∧
      d1s = { (commit [] "t" "u" c5In1 "d1" 1).1 with status := "superseded" } ∧
      d2.status = "active" ∧
      d2.aiInputsReferenced =
        some (jsonStringifyStringArray
          ((c5In2.aiInputsReferenced.getD []) ++ ["supersedes:" ++ "d1"])) ∧
      getLedger (supersede (commit [] "t" "u" c5In1 "d1" 1).2
        "t" "u" "d1" c5In2 "d2" 2).2 "I" = [d1s, d2] ∧
      getActiveByIntent (supersede (commit [] "t" "u" c5In1 "d1" 1).2
        "t" "u" "d1" c5In2 "d2" 2).2 "I" = [d2] ∧
      d1s ∉ getActiveByIntent (supersede (commit [] "t" "u" c5In1 "d1" 1).2
        "t" "u" "d1" c5In2 "d2" 2).2 "I" :=
  ⟨rfl, rfl, by decide,
   C5_supersede_scenario "t" "u" "u" "I" "d1" "d2" c5In1 c5In2 1 2 rfl rfl (by decide)⟩

end PmSuite
